import Mathlib

/-
Verification of the CodexBar provider usage resolution engine.

The Rust sources are embedded shallowly:
- Rust strings are modelled as lists of characters (type Str below); byte-level
  code (the ANSI stripper) is modelled on lists of natural numbers standing for
  bytes, with an explicit UTF-8 encoder connecting the two views.
- f64 values appearing in the engine are modelled as rationals; every number the
  engine manipulates comes from decimal text, so this is exact on all inputs the
  code parses.
- Fallible operations return Option or Except; external effects (environment
  variables, spawned processes, files, the JSON parser of serde) appear as
  explicit inputs so that the control flow of the Rust code is preserved.
-/

attribute [local semireducible] Rat.add Rat.sub Rat.mul Rat.inv

namespace CodexBar

/-! ## Rust string primitives -/

/-- A Rust string slice, viewed as its list of characters. -/
abbrev Str := List Char

/-- Chars of a Lean string literal, used to write concrete Rust strings. -/
def chars (s : String) : Str := s.data

/-- Rust char::to_ascii_lowercase. -/
def asciiLower (c : Char) : Char :=
  if 'A' ≤ c ∧ c ≤ 'Z' then Char.ofNat (c.toNat + 32) else c

/-- Rust str::to_ascii_lowercase. -/
def lowerStr (s : Str) : Str := s.map asciiLower

/-- Rust str::contains for a literal substring needle. -/
def containsSub (hay needle : Str) : Bool :=
  hay.tails.any (fun t => needle.isPrefixOf t)

/-- ASCII whitespace recognized by the trimming model. -/
def isWs (c : Char) : Bool := c = ' ' ∨ c = '\t' ∨ c = '\n' ∨ c = '\r'

/-- Rust str::trim (restricted to ASCII whitespace). -/
def trim (s : Str) : Str :=
  ((s.dropWhile isWs).reverse.dropWhile isWs).reverse

/-- Splits on every newline character, keeping empty segments. -/
def splitOnNl : Str → List Str
  | [] => [[]]
  | c :: rest =>
    if c = '\n' then [] :: splitOnNl rest
    else
      match splitOnNl rest with
      | [] => [[c]]
      | l :: ls => (c :: l) :: ls

/-- Drops a single trailing carriage return, as Rust str::lines does per line. -/
def stripTrailingCr (l : Str) : Str :=
  match l.getLast? with
  | some '\r' => l.dropLast
  | _ => l

/-- Processes the newline-separated segments: every segment except the last
was terminated by a newline and loses one trailing carriage return; the final
unterminated segment is kept as-is, or dropped when empty. -/
def rustLinesAux : List Str → List Str
  | [] => []
  | [last] => if last = [] then [] else [last]
  | part :: rest => stripTrailingCr part :: rustLinesAux rest

/-- Rust str::lines: split on newline, drop one carriage return before each
newline, and produce no trailing empty segment. -/
def rustLines (s : Str) : List Str :=
  rustLinesAux (splitOnNl s)

/-- Rust str::split_once at the first colon: (before, after) without the colon. -/
def splitOnceColon (s : Str) : Option (Str × Str) :=
  match s.findIdx? (· = ':') with
  | none => none
  | some i => some (s.take i, s.drop (i + 1))

/-! ## Number parsing (Rust str::parse on the token shapes the engine produces) -/

/-- Value of a run of decimal digits. -/
def natOfDigits (s : Str) : Nat :=
  s.foldl (fun a c => 10 * a + (c.toNat - 48)) 0

/-- Value of a token made of digits and at most one decimal point. -/
def ratOfDecimalDigits (s : Str) : Rat :=
  let ip := s.takeWhile (· ≠ '.')
  let fp := (s.dropWhile (· ≠ '.')).drop 1
  (natOfDigits ip : Rat) + (natOfDigits fp : Rat) / ((10 : Rat) ^ fp.length)

/-- Unsigned decimal-notation part of Rust f64::from_str: digits with at most
one decimal point and at least one digit. -/
def parseUnsignedF64 (s : Str) : Option Rat :=
  if s.all (fun c => c.isDigit || c = '.') && s.countP (fun c => c = '.') ≤ 1
      && s.any Char.isDigit then
    some (ratOfDecimalDigits s)
  else none

/-- Rust f64::from_str on decimal-notation input, with an optional sign. -/
def parseF64 : Str → Option Rat
  | '-' :: rest => (parseUnsignedF64 rest).map (fun q => -q)
  | '+' :: rest => parseUnsignedF64 rest
  | s => parseUnsignedF64 s

/-- Rust u16::from_str: optional plus sign, decimal digits, value below 2^16. -/
def parseU16 (s : Str) : Option Nat :=
  let digits := match s with
    | '+' :: rest => rest
    | other => other
  if digits ≠ [] ∧ digits.all Char.isDigit then
    let n := natOfDigits digits
    if n ≤ 65535 then some n else none
  else none

/-- Rust f64::clamp(0.0, 100.0). -/
def rclamp (x : Rat) : Rat := min (max x 0) 100

/-! ## TextScraper: parse_last_number / parse_first_number (main.rs 887-937) -/

/-- parse_last_number: drop trailing non-digits, then take the rightmost run of
digits and dots, and parse it as f64. -/
def parse_last_number (input : Str) : Option Rat :=
  let rev := input.reverse.dropWhile (fun c => !c.isDigit)
  if rev = [] then none
  else parseF64 (rev.takeWhile (fun c => c.isDigit || c = '.')).reverse

/-- parse_first_number: skip to the first digit, take the run of digits, dots
and commas, strip the commas, and parse as f64. -/
def parse_first_number (input : Str) : Option Rat :=
  let rest := input.dropWhile (fun c => !c.isDigit)
  if rest = [] then none
  else
    let tok := rest.takeWhile (fun c => c.isDigit || c = '.' || c = ',')
    parseF64 (tok.filter (fun c => c ≠ ','))

/-! ## TextScraper: label-anchored extraction (main.rs 853-867) -/

/-- first_line_containing_case_insensitive (main.rs 853-858). -/
def first_line_containing_case_insensitive (text : Str) (needle : Str) : Option Str :=
  (rustLines text).find? (fun line => containsSub (lowerStr line) (lowerStr needle))

/-- extract_percent_left_from_line (main.rs 860-867): require the line to
contain left (case-insensitively), then parse the rightmost number before the
first percent sign. -/
def extract_percent_left_from_line (line : Str) : Option Rat :=
  if !containsSub (lowerStr line) (chars "left") then none
  else
    match line.findIdx? (· = '%') with
    | none => none
    | some i => parse_last_number (line.take i)

/-! ## TextScraper: credits extraction (main.rs 869-885) -/

/-- One iteration of the extract_credits_from_status loop body: on a line that
mentions credits, first search after a colon when present, then fall back to
the whole line. -/
def credit_from_line (line : Str) : Option Rat :=
  if !containsSub (lowerStr line) (chars "credits") then none
  else
    match splitOnceColon line with
    | some (_, tail) =>
      match parse_first_number tail with
      | some value => some value
      | none => parse_first_number line
    | none => parse_first_number line

/-- extract_credits_from_status (main.rs 869-885). -/
def extract_credits_from_status (text : Str) : Option Rat :=
  (rustLines text).findSome? credit_from_line

/-- The credits extraction as the specification describes it: a line containing
a colon is searched only in the text after the colon. Stated for comparison
with extract_credits_from_status. -/
def extract_credits_spec_alg (text : Str) : Option Rat :=
  (rustLines text).findSome? fun line =>
    if !containsSub (lowerStr line) (chars "credits") then none
    else
      match splitOnceColon line with
      | some (_, tail) => parse_first_number tail
      | none => parse_first_number line

/-! ## Decimal rendering of integers (Rust format of an i64) -/

/-- Decimal digits of a natural number. -/
def natDigits (n : Nat) : Str := Nat.toDigits 10 n

/-- Decimal rendering of an integer, as Rust Display for i64. -/
def intToStr : Int → Str
  | .ofNat n => natDigits n
  | .negSucc m => '-' :: natDigits (m + 1)

/-! ## Data model (codexbar-core lib.rs 15-51) -/

/-- RateWindow (lib.rs 30-34); f64 percentages are modelled as rationals. -/
structure RateWindow where
  used_percent : Option Rat
  window_minutes : Option Nat
  resets_at : Option Str
deriving DecidableEq

/-- IdentityInfo (lib.rs 38-42). -/
structure IdentityInfo where
  account_email : Option Str
  account_organization : Option Str
  login_method : Option Str
deriving DecidableEq

/-- StatusInfo (lib.rs 46-51). -/
structure StatusInfo where
  indicator : Option Str
  description : Option Str
  updated_at : Option Str
  url : Option Str
deriving DecidableEq

/-- ProviderEntry (lib.rs 15-26). -/
structure ProviderEntry where
  provider : Str
  source : Option Str
  updated_at : Str
  primary : Option RateWindow
  secondary : Option RateWindow
  tertiary : Option RateWindow
  credits_remaining : Option Rat
  code_review_remaining_percent : Option Rat
  identity : Option IdentityInfo
  status : Option StatusInfo
deriving DecidableEq

/-! ## JSON values (model of serde_json::Value) -/

/-- A JSON value. Numbers are modelled as rationals. -/
inductive Json where
  | null
  | bool (b : Bool)
  | num (q : Rat)
  | str (s : Str)
  | arr (items : List Json)
  | obj (fields : List (Str × Json))

/-- Lookup of a field in an object field list (first match wins). -/
def lookupField (fields : List (Str × Json)) (key : Str) : Option Json :=
  match fields with
  | [] => none
  | (k, v) :: rest => if k = key then some v else lookupField rest key

/-- serde_json Value::get(key): a field of an object, none on other values. -/
def Json.get : Json → Str → Option Json
  | .obj fields, key => lookupField fields key
  | _, _ => none

/-- serde_json Value::as_i64: an integral number. -/
def Json.asI64 : Json → Option Int
  | .num q => if q.den = 1 then some q.num else none
  | _ => none

/-- serde_json Value::as_str. -/
def Json.asStr : Json → Option Str
  | .str s => some s
  | _ => none

/-! ## Rate-window conversions (main.rs 727-776) -/

/-- json_number_value (main.rs 757-763): a JSON number, or a string parsed as
f64 after trimming. -/
def json_number_value : Json → Option Rat
  | .num q => some q
  | .str s => parseF64 (trim s)
  | _ => none

/-- rate_window_from_claude_json (main.rs 727-755): clamp the utilization to
[0, 100], keep a non-empty resets_at string or render an integral number as
unix seconds, and drop the window when both are absent. -/
def rate_window_from_claude_json (value : Json) (key : Str) (window_minutes : Nat) :
    Option RateWindow :=
  match value.get key with
  | none => none
  | some window =>
    let used_percent := ((window.get (chars "utilization")).bind json_number_value).map rclamp
    let resets_at : Option Str :=
      match window.get (chars "resets_at") with
      | some (.str text) =>
        if trim text ≠ [] then some (trim text) else none
      | some (.num q) =>
        if q.den = 1 then some (chars "unix:" ++ intToStr q.num) else none
      | _ => none
    if used_percent.isNone && resets_at.isNone then none
    else some ⟨used_percent, some window_minutes, resets_at⟩

/-- RpcRateLimitWindow (main.rs 1116-1124). -/
structure RpcRateLimitWindow where
  used_percent : Option Rat
  window_duration_mins : Option Nat
  resets_at : Option Int
deriving DecidableEq

/-- RpcCreditsSnapshot (main.rs 1126-1129). -/
structure RpcCreditsSnapshot where
  balance : Option Str
deriving DecidableEq

/-- RpcRateLimitSnapshot (main.rs 1109-1114). -/
structure RpcRateLimitSnapshot where
  primary : Option RpcRateLimitWindow
  secondary : Option RpcRateLimitWindow
  credits : Option RpcCreditsSnapshot
deriving DecidableEq

/-- RpcAccountDetails (main.rs 1090-1101). -/
inductive RpcAccountDetails where
  | apiKey
  | chatGPT (email : Option Str) (plan_type : Option Str)
deriving DecidableEq

/-- RpcAccountResponse (main.rs 1085-1088). -/
structure RpcAccountResponse where
  account : Option RpcAccountDetails
deriving DecidableEq

/-- rate_window_from_codex (main.rs 765-776): a window without usedPercent is
dropped entirely; a present usedPercent is copied without clamping. -/
def rate_window_from_codex : Option RpcRateLimitWindow → Option RateWindow
  | none => none
  | some window =>
    match window.used_percent with
    | none => none
    | some used_percent =>
      some ⟨some used_percent, window.window_duration_mins,
            window.resets_at.map (fun timestamp => chars "unix:" ++ intToStr timestamp)⟩

/-- The data-mapping core of fetch_codex_entry_via_rpc (main.rs 342-373), after
the account and rate-limit responses have been read: convert both windows,
return no entry when both are dropped, otherwise derive identity and credits.
The surrounding code only attaches a source label, a timestamp and CLI flags. -/
def codex_rpc_entry_core (account : Option RpcAccountResponse)
    (limits : RpcRateLimitSnapshot) :
    Option (Option RateWindow × Option RateWindow × Option Rat × Option IdentityInfo) :=
  let primary := rate_window_from_codex limits.primary
  let secondary := rate_window_from_codex limits.secondary
  if primary.isNone && secondary.isNone then none
  else
    let identity := (account.bind (fun response => response.account)).bind
      fun details =>
        match details with
        | .apiKey => none
        | .chatGPT email plan_type => some ⟨email, none, plan_type⟩
    let credits_remaining :=
      (limits.credits.bind (fun credits => credits.balance)).bind parseF64
    some (primary, secondary, credits_remaining, identity)

/-! ## The /status scrape core (main.rs 394-430) -/

/-- The five-hour value of the /status scrape: first line naming the 5h limit,
percent-left extraction, and conversion used = 100 - left clamped to [0,100]. -/
def status_five_used (cleaned : Str) : Option Rat :=
  ((first_line_containing_case_insensitive cleaned (chars "5h limit")).bind
    extract_percent_left_from_line).map (fun left => rclamp (100 - left))

/-- The weekly value of the /status scrape, as status_five_used. -/
def status_weekly_used (cleaned : Str) : Option Rat :=
  ((first_line_containing_case_insensitive cleaned (chars "weekly limit")).bind
    extract_percent_left_from_line).map (fun left => rclamp (100 - left))

/-- The extraction core of fetch_codex_entry_via_status (main.rs 394-430) on
ANSI-stripped text: no entry when nothing was extracted, otherwise the primary
(300-minute) and secondary (10080-minute) windows and the credits value. -/
def codex_status_entry_core (cleaned : Str) :
    Option (Option RateWindow × Option RateWindow × Option Rat) :=
  let five_left := status_five_used cleaned
  let weekly_left := status_weekly_used cleaned
  let credits_remaining := extract_credits_from_status cleaned
  if five_left.isNone && weekly_left.isNone && credits_remaining.isNone then none
  else
    some (five_left.map (fun used => ⟨some used, some 300, none⟩),
          weekly_left.map (fun used => ⟨some used, some 10080, none⟩),
          credits_remaining)

/-! ## Strategy orchestrator (main.rs 144-172 and 318-328)

A strategy or a whole provider fetch is a value of
Except Str (Option ProviderEntry): an error message, no data, or an entry.
The orchestrator consumes these outcomes; the effects that computed them are
inputs of the model. -/

/-- A provider fetch outcome, as returned by fetch_live_entry. -/
abbrev FetchOutcome := Except Str (Option ProviderEntry)

/-- fetch_codex_entry (main.rs 318-328): try the RPC strategy first; when it
returns no data or fails (the failure is logged), fall back to the /status
scrape strategy. -/
def fetch_codex_entry (rpc status_fallback : FetchOutcome) : FetchOutcome :=
  match rpc with
  | .ok (some entry) => .ok (some entry)
  | .ok none => status_fallback
  | .error _ => status_fallback

/-- The loop body of selected_entries (main.rs 148-162): a failed fetch is
logged and treated as no data; only providers with an entry contribute. -/
def entry_of_outcome (outcome : FetchOutcome) : Option ProviderEntry :=
  match outcome with
  | .ok (some entry) => some entry
  | .ok none => none
  | .error _ => none

/-- selected_entries (main.rs 144-172): fetch every requested provider, keep
the successful entries in request order, and fail only when none succeeded. -/
def selected_entries (fetch : Str → FetchOutcome) (providers : List Str) :
    Except Str (List ProviderEntry) :=
  let entries := providers.filterMap (fun provider => entry_of_outcome (fetch provider))
  if entries.isEmpty then .error (chars "no live usage data available") else .ok entries

/-- requested_providers (main.rs 300-308). -/
def requested_providers (raw : Str) : Except Str (List Str) :=
  let normalized := lowerStr (trim raw)
  if normalized = chars "all" ∨ normalized = chars "both" then
    .ok [chars "codex", chars "claude"]
  else if normalized = chars "codex" then .ok [chars "codex"]
  else if normalized = chars "claude" then .ok [chars "claude"]
  else .error (chars "unknown provider")

/-! ## RpcSession request loop (main.rs 1001-1073)

Stdout of the child process is a stream of lines; each line is empty after
trimming, fails JSON parsing, or parses to a JSON value. The serde parser is
external, so the stream records the parse outcome per line. -/

/-- One line read from the child stdout, after trimming and JSON parsing. -/
inductive RpcLine where
  | blank
  | badLine (s : Str)
  | msg (j : Json)

/-- Failures of CodexRpcSession::request. -/
inductive RpcFailure where
  | closedStdout
  | rpcError (method : Str) (error : Json)
  | missingResult (method : Str)

/-- read_message (main.rs 1052-1073): skip lines that are empty after trimming
and lines that fail to parse; fail when stdout is exhausted. -/
def read_message : List RpcLine → Except RpcFailure (Json × List RpcLine)
  | [] => .error .closedStdout
  | .blank :: rest => read_message rest
  | .badLine _ :: rest => read_message rest
  | .msg j :: rest => .ok (j, rest)

/-- Whether a message answers the outstanding request with the given id. -/
def matchesId (id : Int) (j : Json) : Bool :=
  (j.get (chars "id")).bind Json.asI64 == some id

/-- Whether a stdout line is a parsed message answering the given request id. -/
def lineAnswers (id : Int) : RpcLine → Bool
  | .msg j => matchesId id j
  | _ => false

/-- The response loop of CodexRpcSession::request (main.rs 1011-1027), reading
from the given stdout stream: skip blank, unparsable and differently-numbered
messages; on the first message with the outstanding id, fail on an error field,
return the result field, or fail on a message carrying neither. -/
def request_loop (method : Str) (id : Int) : List RpcLine → Except RpcFailure Json
  | [] => .error .closedStdout
  | .blank :: rest => request_loop method id rest
  | .badLine _ :: rest => request_loop method id rest
  | .msg j :: rest =>
    if !matchesId id j then request_loop method id rest
    else
      match j.get (chars "error") with
      | some e => .error (.rpcError method e)
      | none =>
        match j.get (chars "result") with
        | some r => .ok r
        | none => .error (.missingResult method)

/-! ## Credential resolution (main.rs 497-634)

The world record carries the outcomes of the external lookups: environment
variables, the secret-tool process, the kwallet-query process per wallet, and
the parsed on-disk credentials file. A process outcome is none when the
program could not be run, otherwise its success flag and captured stdout. -/

/-- External state consulted by the credential resolver. -/
structure World where
  env : Str → Option Str
  secretTool : Str → Option (Bool × Str)
  kwalletQuery : Str → Str → Option (Bool × Str)
  credentialsFile : Option Json

/-- first_env_value (main.rs 497-504): first environment variable whose
trimmed value is non-empty. -/
def first_env_value (env : Str → Option Str) (names : List Str) : Option Str :=
  names.findSome? fun name =>
    match env name with
    | none => none
    | some value =>
      let trimmed := trim value
      if trimmed = [] then none else some trimmed

/-- lookup_claude_secret_via_secret_tool (main.rs 556-571). -/
def lookup_claude_secret_via_secret_tool (w : World) (field : Str) : Option Str :=
  match w.secretTool field with
  | none => none
  | some (ok, out) =>
    if !ok then none
    else
      let value := trim out
      if value = [] then none else some value

/-- lookup_claude_secret_via_kwallet (main.rs 614-634): try the two wallets in
order, returning the first successful non-empty value. -/
def lookup_claude_secret_via_kwallet (w : World) (field : Str) : Option Str :=
  [chars "kdewallet", chars "kdewallet5"].findSome? fun wallet =>
    match w.kwalletQuery wallet field with
    | none => none
    | some (ok, out) =>
      if !ok then none
      else
        let value := trim out
        if value = [] then none else some value

/-- lookup_claude_secret (main.rs 552-554): secret-tool first, then kwallet. -/
def lookup_claude_secret (w : World) (field : Str) : Option Str :=
  (lookup_claude_secret_via_secret_tool w field).orElse
    fun _ => lookup_claude_secret_via_kwallet w field

/-- load_claude_oauth_access_token_from_credentials_file (main.rs 512-530):
needs HOME, a parsable credentials file, a nested string field, and a
non-empty trimmed token. -/
def load_claude_oauth_access_token_from_credentials_file (w : World) : Option Str :=
  match w.env (chars "HOME") with
  | none => none
  | some _ =>
    match w.credentialsFile with
    | none => none
    | some json =>
      match ((json.get (chars "claudeAiOauth")).bind
          (fun value => value.get (chars "accessToken"))).bind Json.asStr with
      | none => none
      | some token =>
        let token := trim token
        if token = [] then none else some token

/-- The environment-variable override names consulted for the Claude token. -/
def claude_token_env_names : List Str :=
  [chars "CODEXBAR_CLAUDE_OAUTH_TOKEN", chars "CLAUDE_OAUTH_TOKEN"]

/-- resolve_claude_oauth_access_token (main.rs 506-510): environment overrides,
then the secret-storage backends, then the credentials file. -/
def resolve_claude_oauth_access_token (w : World) : Option Str :=
  (first_env_value w.env claude_token_env_names).orElse fun _ =>
    (lookup_claude_secret w (chars "oauth_access_token")).orElse fun _ =>
      load_claude_oauth_access_token_from_credentials_file w

/-- The sources of resolve_claude_oauth_access_token, in consultation order. -/
inductive TokenSource where
  | envVars
  | secretTool
  | kwallet
  | credentialsFile
deriving DecidableEq

/-- resolve_claude_oauth_access_token instrumented with the list of sources
consulted, mirroring the laziness of the or_else chain: a source is consulted
exactly when every earlier source produced nothing. -/
def resolve_claude_oauth_access_token_traced (w : World) :
    Option Str × List TokenSource :=
  match first_env_value w.env claude_token_env_names with
  | some value => (some value, [.envVars])
  | none =>
    match lookup_claude_secret_via_secret_tool w (chars "oauth_access_token") with
    | some value => (some value, [.envVars, .secretTool])
    | none =>
      match lookup_claude_secret_via_kwallet w (chars "oauth_access_token") with
      | some value => (some value, [.envVars, .secretTool, .kwallet])
      | none =>
        match load_claude_oauth_access_token_from_credentials_file w with
        | some value => (some value, [.envVars, .secretTool, .kwallet, .credentialsFile])
        | none => (none, [.envVars, .secretTool, .kwallet, .credentialsFile])

/-! ## HTTP strategy output handling (main.rs 477-494 and 670-675) -/

/-- Drops trailing carriage returns and newlines, as
trim_end_matches with a \r and \n pattern. -/
def trimEndCrNl (s : Str) : Str :=
  (s.reverse.dropWhile (fun c => c = '\r' || c = '\n')).reverse

/-- Rust str::rsplit_once at a newline: split at the last newline into the part
before and the part after it. -/
def rsplitOnceNl (s : Str) : Option (Str × Str) :=
  match s.reverse.findIdx? (· = '\n') with
  | none => none
  | some i => some (s.take (s.length - 1 - i), s.drop (s.length - i))

/-- split_curl_body_and_status (main.rs 670-675): trim trailing newlines, split
at the last newline, and parse the trailer as a u16 status code. -/
def split_curl_body_and_status (output : Str) : Option (Str × Nat) :=
  match rsplitOnceNl (trimEndCrNl output) with
  | none => none
  | some (body, status_line) =>
    (parseU16 (trim status_line)).map (fun code => (body, code))

/-- The response-handling tail of fetch_claude_entry (main.rs 485-494): no data
when the output does not split or the status is not 200; otherwise build the
entry from the body. The body-to-entry step (serde parsing plus mapping) is the
function argument. -/
def claude_entry_of_curl_stdout (entry_from_body : Str → Option ProviderEntry)
    (stdout : Str) : Option ProviderEntry :=
  match split_curl_body_and_status stdout with
  | none => none
  | some (body, status_code) =>
    if status_code ≠ 200 then none
    else entry_from_body body

/-- The window-building core of claude_entry_from_usage_json (main.rs 683-688)
on the parsed body: build the three windows and return no entry when all three
are absent. -/
def claude_usage_windows (value : Json) :
    Option (Option RateWindow × Option RateWindow × Option RateWindow) :=
  let primary := rate_window_from_claude_json value (chars "five_hour") 300
  let secondary := rate_window_from_claude_json value (chars "seven_day") 10080
  let tertiary := (rate_window_from_claude_json value (chars "seven_day_sonnet") 10080).orElse
    fun _ => rate_window_from_claude_json value (chars "seven_day_opus") 10080
  if primary.isNone && secondary.isNone && tertiary.isNone then none
  else some (primary, secondary, tertiary)

/-! ## ANSI stripping (main.rs 824-851)

The Rust function walks the UTF-8 bytes of its input and pushes every byte it
keeps as a char whose code point is the byte value. Bytes are modelled as
natural numbers; the characters of the input string are turned into bytes by
an explicit UTF-8 encoder. -/

/-- UTF-8 encoding of one code point. -/
def utf8EncodeChar (c : Nat) : List Nat :=
  if c < 128 then [c]
  else if c < 2048 then [192 + c / 64, 128 + c % 64]
  else if c < 65536 then [224 + c / 4096, 128 + c / 64 % 64, 128 + c % 64]
  else [240 + c / 262144, 128 + c / 4096 % 64, 128 + c / 64 % 64, 128 + c % 64]

/-- UTF-8 encoding of a string given as its code points. -/
def utf8Encode : List Nat → List Nat
  | [] => []
  | c :: rest => utf8EncodeChar c ++ utf8Encode rest

/-- The processing mode of the strip_ansi_sequences loop: plain text, just
after an escape byte, or inside an ESC-bracket sequence. -/
inductive AnsiMode where
  | text
  | escape
  | bracket

/-- The loop of strip_ansi_sequences (main.rs 829-848), written as a state
machine over the byte list. In escape mode a byte other than a bracket is
re-dispatched exactly as the plain-text arm would handle it, matching the
continue of the source; in bracket mode bytes are consumed up to and including
the first final byte in 0x40-0x7E. -/
def stripAnsiLoop : AnsiMode → List Nat → List Nat
  | _, [] => []
  | .text, b :: rest =>
    if b = 27 then stripAnsiLoop .escape rest
    else b :: stripAnsiLoop .text rest
  | .escape, b :: rest =>
    if b = 91 then stripAnsiLoop .bracket rest
    else if b = 27 then stripAnsiLoop .escape rest
    else b :: stripAnsiLoop .text rest
  | .bracket, b :: rest =>
    if 64 ≤ b ∧ b ≤ 126 then stripAnsiLoop .text rest
    else stripAnsiLoop .bracket rest

/-- strip_ansi_sequences (main.rs 824-851) on a string given as its code
points: encode to UTF-8 bytes, strip escape sequences byte-wise, and return
the pushed characters, whose code points are the kept byte values. -/
def strip_ansi_sequences (s : List Nat) : List Nat :=
  stripAnsiLoop .text (utf8Encode s)

/-! ## Windowed-search extraction -/

/-- Modelled from the spec: the label-anchored windowed-search extraction of
the interactive multi-line scraper is not part of the sources at hand, only
its description in the specification is. It locates a line whose lowercase
form contains one of the label synonyms, scans up to 8 subsequent lines for
the first one containing a percent sign, takes the numeric token immediately
before that sign, keeps the value as-is on a used, spent or consumed line,
otherwise converts it via 100 minus the value, and clamps to [0, 100]. -/
def windowed_percent_extract (labels : List Str) (text : Str) : Option Rat :=
  let lines := rustLines text
  match lines.findIdx? (fun line => labels.any (fun lab => containsSub (lowerStr line) lab)) with
  | none => none
  | some i =>
    match ((lines.drop (i + 1)).take 8).find? (fun line => line.any (· = '%')) with
    | none => none
    | some line =>
      match line.findIdx? (· = '%') with
      | none => none
      | some percent_index =>
        match parse_last_number (line.take percent_index) with
        | none => none
        | some value =>
          let lower := lowerStr line
          let used :=
            if containsSub lower (chars "used") || containsSub lower (chars "spent")
                || containsSub lower (chars "consumed") then value
            else 100 - value
          some (rclamp used)

/-! ## Helper lemmas -/

theorem rclamp_nonneg (x : Rat) : 0 ≤ rclamp x :=
  le_min (le_max_right x 0) (by norm_num)

theorem rclamp_le_100 (x : Rat) : rclamp x ≤ 100 :=
  min_le_right _ _

theorem rclamp_mem (x : Rat) : 0 ≤ rclamp x ∧ rclamp x ≤ 100 :=
  ⟨rclamp_nonneg x, rclamp_le_100 x⟩

theorem utf8EncodeChar_ascii {c : Nat} (h : c < 128) : utf8EncodeChar c = [c] := by
  simp [utf8EncodeChar, h]

theorem utf8Encode_ascii : ∀ s : List Nat, (∀ c ∈ s, c < 128) → utf8Encode s = s := by
  intro s h
  induction s with
  | nil => rfl
  | cons c rest ih =>
    have hc : c < 128 := h c (List.mem_cons_self c rest)
    have hrest : ∀ b ∈ rest, b < 128 := fun b hb => h b (List.mem_cons_of_mem c hb)
    simp [utf8Encode, utf8EncodeChar_ascii hc, ih hrest]

theorem stripAnsiLoop_mem : ∀ (s : List Nat) (m : AnsiMode) (b : Nat),
    b ∈ stripAnsiLoop m s → b ∈ s ∧ b ≠ 27 := by
  intro s
  induction s with
  | nil => intro m b h; simp [stripAnsiLoop] at h
  | cons a rest ih =>
    intro m b h
    cases m with
    | text =>
      by_cases ha : a = 27
      · rw [show stripAnsiLoop .text (a :: rest) = stripAnsiLoop .escape rest by
          simp [stripAnsiLoop, ha]] at h
        have := ih .escape b h
        exact ⟨List.mem_cons_of_mem _ this.1, this.2⟩
      · rw [show stripAnsiLoop .text (a :: rest) = a :: stripAnsiLoop .text rest by
          simp [stripAnsiLoop, ha]] at h
        rcases List.mem_cons.mp h with hb | hb
        · exact ⟨hb ▸ List.mem_cons_self a rest, hb ▸ ha⟩
        · have := ih .text b hb
          exact ⟨List.mem_cons_of_mem _ this.1, this.2⟩
    | escape =>
      by_cases h91 : a = 91
      · rw [show stripAnsiLoop .escape (a :: rest) = stripAnsiLoop .bracket rest by
          simp [stripAnsiLoop, h91]] at h
        have := ih .bracket b h
        exact ⟨List.mem_cons_of_mem _ this.1, this.2⟩
      · by_cases h27 : a = 27
        · rw [show stripAnsiLoop .escape (a :: rest) = stripAnsiLoop .escape rest by
            simp [stripAnsiLoop, h91, h27]] at h
          have := ih .escape b h
          exact ⟨List.mem_cons_of_mem _ this.1, this.2⟩
        · rw [show stripAnsiLoop .escape (a :: rest) = a :: stripAnsiLoop .text rest by
            simp [stripAnsiLoop, h91, h27]] at h
          rcases List.mem_cons.mp h with hb | hb
          · exact ⟨hb ▸ List.mem_cons_self a rest, hb ▸ h27⟩
          · have := ih .text b hb
            exact ⟨List.mem_cons_of_mem _ this.1, this.2⟩
    | bracket =>
      by_cases hfin : 64 ≤ a ∧ a ≤ 126
      · rw [show stripAnsiLoop .bracket (a :: rest) = stripAnsiLoop .text rest by
          simp [stripAnsiLoop, hfin]] at h
        have := ih .text b h
        exact ⟨List.mem_cons_of_mem _ this.1, this.2⟩
      · rw [show stripAnsiLoop .bracket (a :: rest) = stripAnsiLoop .bracket rest by
          simp [stripAnsiLoop, hfin]] at h
        have := ih .bracket b h
        exact ⟨List.mem_cons_of_mem _ this.1, this.2⟩

theorem stripAnsiLoop_no_esc : ∀ s : List Nat, (∀ b ∈ s, b ≠ 27) →
    stripAnsiLoop .text s = s := by
  intro s
  induction s with
  | nil => intro _; rfl
  | cons a rest ih =>
    intro h
    have ha : a ≠ 27 := h a (List.mem_cons_self a rest)
    have : stripAnsiLoop .text (a :: rest) = a :: stripAnsiLoop .text rest := by
      simp [stripAnsiLoop, ha]
    rw [this, ih (fun b hb => h b (List.mem_cons_of_mem a hb))]

/-! ## Claim C6: idempotence of ANSI stripping -/

/-- Claim C6 counterexample: stripping is not idempotent on every input
string. The one-character string with code point 233 contains no escape
sequence, yet a first strip re-reads its two UTF-8 bytes as two characters,
and a second strip turns those into four characters. -/
theorem strip_ansi_not_idempotent :
    strip_ansi_sequences (strip_ansi_sequences [233]) ≠ strip_ansi_sequences [233] := by
  decide

/-- Claim C6 (amended): on ASCII input, stripping the output of a first strip
is a no-op, and the stripper returns already-ANSI-clean ASCII text unchanged. -/
theorem strip_ansi_idempotent_on_ascii :
    (∀ s : List Nat, (∀ c ∈ s, c < 128) →
        strip_ansi_sequences (strip_ansi_sequences s) = strip_ansi_sequences s)
  ∧ (∀ s : List Nat, (∀ c ∈ s, c < 128) → (∀ c ∈ s, c ≠ 27) →
        strip_ansi_sequences s = s) := by
  have key : ∀ s : List Nat, (∀ c ∈ s, c < 128) → (∀ c ∈ s, c ≠ 27) →
      strip_ansi_sequences s = s := by
    intro s hlt hne
    unfold strip_ansi_sequences
    rw [utf8Encode_ascii s hlt]
    exact stripAnsiLoop_no_esc s hne
  refine ⟨?_, key⟩
  intro s hlt
  have h1 : strip_ansi_sequences s = stripAnsiLoop .text s := by
    unfold strip_ansi_sequences
    rw [utf8Encode_ascii s hlt]
  have hmem : ∀ c ∈ strip_ansi_sequences s, c ∈ s ∧ c ≠ 27 := by
    intro c hc
    rw [h1] at hc
    exact stripAnsiLoop_mem s .text c hc
  exact key _ (fun c hc => hlt c (hmem c hc).1) (fun c hc => (hmem c hc).2)

theorem strip_ansi_idempotent_on_ascii_witness :
    strip_ansi_sequences (strip_ansi_sequences [104, 27, 91, 51, 49, 109, 105]) =
      strip_ansi_sequences [104, 27, 91, 51, 49, 109, 105] :=
  strip_ansi_idempotent_on_ascii.1 [104, 27, 91, 51, 49, 109, 105] (by decide)

/-! ## Claim C1: range of usedPercent values -/

/-- Claim C1 counterexample: the codex RPC mapping performs no clamping. Fed a
window reporting usedPercent 150, it produces a RateWindow whose usedPercent
is 150, which does not lie in [0, 100]. -/
theorem rate_window_from_codex_unclamped :
    rate_window_from_codex (some ⟨some 150, none, none⟩) = some ⟨some 150, none, none⟩
      ∧ ¬ ((150 : Rat) ≤ 100) :=
  ⟨rfl, by decide⟩

/-- Claim C1 (amended): the /status scrape path and the Claude OAuth JSON path
clamp usedPercent to [0, 100] after their arithmetic, so every window they
produce satisfies the bound; the codex RPC mapping copies usedPercent
unchanged, so its windows satisfy the bound exactly when the reported value
already does. -/
theorem used_percent_clamped_in_scrape_and_claude_paths :
    (∀ value key mins window u,
        rate_window_from_claude_json value key mins = some window →
        window.used_percent = some u → 0 ≤ u ∧ u ≤ 100)
  ∧ (∀ cleaned u, status_five_used cleaned = some u → 0 ≤ u ∧ u ≤ 100)
  ∧ (∀ cleaned u, status_weekly_used cleaned = some u → 0 ≤ u ∧ u ≤ 100)
  ∧ (∀ w window, rate_window_from_codex w = some window →
        window.used_percent = w.bind RpcRateLimitWindow.used_percent) := by
  refine ⟨?_, ?_, ?_, ?_⟩
  · intro value key mins window u hwin hu
    unfold rate_window_from_claude_json at hwin
    split at hwin
    · exact absurd hwin (by simp)
    · dsimp only [] at hwin
      split at hwin
      · exact absurd hwin (by simp)
      · cases hwin
        rw [Option.map_eq_some'] at hu
        obtain ⟨v, _, hv⟩ := hu
        exact hv ▸ rclamp_mem v
  · intro cleaned u hu
    unfold status_five_used at hu
    rw [Option.map_eq_some'] at hu
    obtain ⟨left, _, hl⟩ := hu
    exact hl ▸ rclamp_mem _
  · intro cleaned u hu
    unfold status_weekly_used at hu
    rw [Option.map_eq_some'] at hu
    obtain ⟨left, _, hl⟩ := hu
    exact hl ▸ rclamp_mem _
  · intro w window h
    cases w with
    | none => exact absurd h (by simp [rate_window_from_codex])
    | some rpcw =>
      cases hu : rpcw.used_percent with
      | none => simp [rate_window_from_codex, hu] at h
      | some u =>
        simp only [rate_window_from_codex, hu, Option.some.injEq] at h
        rw [← h]
        simp [Option.bind, hu]

theorem used_percent_clamped_witness :
    (0 : Rat) ≤ rclamp 150 ∧ rclamp 150 ≤ 100 :=
  used_percent_clamped_in_scrape_and_claude_paths.1
    (.obj [(chars "five_hour", .obj [(chars "utilization", .num 150)])])
    (chars "five_hour") 300 ⟨some (rclamp 150), some 300, none⟩ (rclamp 150)
    (by rfl) (by rfl)

/-! ## Claim C10: the RPC strategy needs a usedPercent -/

/-- Claim C10: in the codex RPC path a rate-limit window without usedPercent
is dropped entirely, even when it carries a duration or a reset time; and when
neither the primary nor the secondary window yields a usedPercent the strategy
returns no entry, whatever the credits balance and identity say. -/
theorem codex_rpc_requires_used_percent :
    (∀ mins reset, rate_window_from_codex (some ⟨none, mins, reset⟩) = none)
  ∧ (∀ account credits p s,
        p.bind RpcRateLimitWindow.used_percent = none →
        s.bind RpcRateLimitWindow.used_percent = none →
        codex_rpc_entry_core account ⟨p, s, credits⟩ = none) := by
  constructor
  · intro mins reset
    rfl
  · intro account credits p s hp hs
    have hpnone : rate_window_from_codex p = none := by
      cases p with
      | none => rfl
      | some pw =>
        have hu : pw.used_percent = none := by simpa [Option.bind] using hp
        simp [rate_window_from_codex, hu]
    have hsnone : rate_window_from_codex s = none := by
      cases s with
      | none => rfl
      | some sw =>
        have hu : sw.used_percent = none := by simpa [Option.bind] using hs
        simp [rate_window_from_codex, hu]
    unfold codex_rpc_entry_core
    simp [hpnone, hsnone]

theorem codex_rpc_requires_used_percent_witness :
    codex_rpc_entry_core
      (some ⟨some (.chatGPT (some (chars "user@example.com")) (some (chars "pro")))⟩)
      ⟨some ⟨none, some 300, some 5⟩, none, some ⟨some (chars "5")⟩⟩ = none :=
  codex_rpc_requires_used_percent.2
    (some ⟨some (.chatGPT (some (chars "user@example.com")) (some (chars "pro")))⟩)
    (some ⟨some (chars "5")⟩) (some ⟨none, some 300, some 5⟩) none (by rfl) (by rfl)

/-! ## Claim C9: the HTTP strategy status gate -/

/-- Claim C9: the HTTP strategy splits the fetch output at the last newline
into body and status trailer; output with no newline, or with a trailer that
does not parse as a number, or with a status other than 200, yields no data
rather than an error, and only status 200 leads to building a result from the
body. -/
theorem curl_status_gate :
    (∀ entry_from_body stdout, rsplitOnceNl (trimEndCrNl stdout) = none →
        claude_entry_of_curl_stdout entry_from_body stdout = none)
  ∧ (∀ entry_from_body stdout body status_line,
        rsplitOnceNl (trimEndCrNl stdout) = some (body, status_line) →
        parseU16 (trim status_line) = none →
        claude_entry_of_curl_stdout entry_from_body stdout = none)
  ∧ (∀ entry_from_body stdout body code,
        split_curl_body_and_status stdout = some (body, code) → code ≠ 200 →
        claude_entry_of_curl_stdout entry_from_body stdout = none)
  ∧ (∀ entry_from_body stdout body,
        split_curl_body_and_status stdout = some (body, 200) →
        claude_entry_of_curl_stdout entry_from_body stdout = entry_from_body body) := by
  refine ⟨?_, ?_, ?_, ?_⟩
  · intro f stdout hsplit
    simp [claude_entry_of_curl_stdout, split_curl_body_and_status, hsplit]
  · intro f stdout body status_line hsplit hparse
    simp [claude_entry_of_curl_stdout, split_curl_body_and_status, hsplit, hparse]
  · intro f stdout body code hsplit hcode
    simp [claude_entry_of_curl_stdout, hsplit, hcode]
  · intro f stdout body hsplit
    simp [claude_entry_of_curl_stdout, hsplit]

theorem curl_status_gate_witness :
    claude_entry_of_curl_stdout
      (fun _ => some ⟨chars "claude", none, chars "now", none, none, none,
        none, none, none, none⟩)
      (chars "a body\n200") =
      some ⟨chars "claude", none, chars "now", none, none, none, none, none, none, none⟩ :=
  curl_status_gate.2.2.2
    (fun _ => some ⟨chars "claude", none, chars "now", none, none, none,
      none, none, none, none⟩)
    (chars "a body\n200") (chars "a body") (by rfl)

/-! ## Claim C3: the RPC response-matching loop -/

/-- Claim C3: for an outstanding request with a numeric id, the request loop
skips every line that is empty, fails to parse, or parses to a message with a
different id; on the first message with the matching id it fails when an error
field is present, returns the result field when present, and reports a
protocol violation when the message has neither; noise prefixes made of such
skipped lines never change the outcome. -/
theorem rpc_request_loop_matching :
    (∀ method id rest, request_loop method id (.blank :: rest) = request_loop method id rest)
  ∧ (∀ method id s rest,
        request_loop method id (.badLine s :: rest) = request_loop method id rest)
  ∧ (∀ method id j rest, matchesId id j = false →
        request_loop method id (.msg j :: rest) = request_loop method id rest)
  ∧ (∀ method id j rest e, matchesId id j = true →
        j.get (chars "error") = some e →
        request_loop method id (.msg j :: rest) = .error (.rpcError method e))
  ∧ (∀ method id j rest r, matchesId id j = true →
        j.get (chars "error") = none → j.get (chars "result") = some r →
        request_loop method id (.msg j :: rest) = .ok r)
  ∧ (∀ method id j rest, matchesId id j = true →
        j.get (chars "error") = none → j.get (chars "result") = none →
        request_loop method id (.msg j :: rest) = .error (.missingResult method))
  ∧ (∀ method id noise rest, noise.all (fun l => !lineAnswers id l) = true →
        request_loop method id (noise ++ rest) = request_loop method id rest) := by
  refine ⟨?_, ?_, ?_, ?_, ?_, ?_, ?_⟩
  · intro method id rest
    rfl
  · intro method id s rest
    rfl
  · intro method id j rest h
    simp [request_loop, h]
  · intro method id j rest e hm he
    simp [request_loop, hm, he]
  · intro method id j rest r hm he hr
    simp [request_loop, hm, he, hr]
  · intro method id j rest hm he hr
    simp [request_loop, hm, he, hr]
  · intro method id noise rest hall
    induction noise with
    | nil => rfl
    | cons l tail ih =>
      rw [List.all_cons, Bool.and_eq_true] at hall
      obtain ⟨hl, htail⟩ := hall
      cases l with
      | blank => exact ih htail
      | badLine s => exact ih htail
      | msg j =>
        have hj : matchesId id j = false := by
          simpa [lineAnswers] using hl
        rw [List.cons_append]
        rw [show request_loop method id (.msg j :: (tail ++ rest)) =
            request_loop method id (tail ++ rest) by simp [request_loop, hj]]
        exact ih htail

theorem rpc_request_loop_matching_witness :
    request_loop (chars "account") 1
      [.badLine (chars "not json"),
       .msg (.obj [(chars "id", .num 99), (chars "result", .obj [])]),
       .msg (.obj [(chars "id", .num 1), (chars "result", .obj [(chars "ok", .bool true)])])]
      = .ok (.obj [(chars "ok", .bool true)]) := by
  have hskip := rpc_request_loop_matching.2.2.2.2.2.2 (chars "account") 1
    [.badLine (chars "not json"),
     .msg (.obj [(chars "id", .num 99), (chars "result", .obj [])])]
    [.msg (.obj [(chars "id", .num 1), (chars "result", .obj [(chars "ok", .bool true)])])]
    (by decide)
  have hdeliver := rpc_request_loop_matching.2.2.2.2.1 (chars "account") 1
    (.obj [(chars "id", .num 1), (chars "result", .obj [(chars "ok", .bool true)])]) []
    (.obj [(chars "ok", .bool true)]) (by decide) (by rfl) (by rfl)
  exact (List.cons_append _ _ _ ▸ hskip).trans hdeliver

/-! ## Claim C2: orchestrator fallback and failure policy -/

/-- Claim C2: the orchestrator tries the strategies of a provider in fixed
order, treats a strategy or provider error as no data without aborting
anything, succeeds with exactly the successful providers in request order
whenever at least one succeeds, and returns a hard error exactly when no
requested provider yields a result. -/
theorem orchestrator_failure_iff_no_provider :
    (∀ msg, entry_of_outcome (.error msg) = none)
  ∧ (∀ entry fallback, fetch_codex_entry (.ok (some entry)) fallback = .ok (some entry))
  ∧ (∀ fallback, fetch_codex_entry (.ok none) fallback = fallback)
  ∧ (∀ msg fallback, fetch_codex_entry (.error msg) fallback = fallback)
  ∧ (∀ fetch providers,
        selected_entries fetch providers = .error (chars "no live usage data available") ↔
          ∀ p ∈ providers, entry_of_outcome (fetch p) = none)
  ∧ (∀ fetch providers, (∃ p ∈ providers, entry_of_outcome (fetch p) ≠ none) →
        selected_entries fetch providers =
          .ok (providers.filterMap (fun p => entry_of_outcome (fetch p)))) := by
  have hnil : ∀ (fetch : Str → FetchOutcome) (providers : List Str),
      providers.filterMap (fun p => entry_of_outcome (fetch p)) = [] ↔
        ∀ p ∈ providers, entry_of_outcome (fetch p) = none := by
    intro fetch providers
    exact List.filterMap_eq_nil_iff
  refine ⟨fun msg => rfl, fun entry fallback => rfl, fun fallback => rfl,
      fun msg fallback => rfl, ?_, ?_⟩
  · intro fetch providers
    simp only [selected_entries]
    split
    · next hemp =>
      rw [List.isEmpty_iff] at hemp
      constructor
      · intro _
        exact (hnil fetch providers).mp hemp
      · intro _
        rfl
    · next hemp =>
      rw [List.isEmpty_iff] at hemp
      constructor
      · intro h
        exact absurd h (by simp)
      · intro hall
        exact absurd ((hnil fetch providers).mpr hall) hemp
  · intro fetch providers hex
    simp only [selected_entries]
    split
    · next hemp =>
      rw [List.isEmpty_iff] at hemp
      obtain ⟨p, hp, hne⟩ := hex
      exact absurd ((hnil fetch providers).mp hemp p hp) hne
    · rfl

theorem orchestrator_failure_iff_no_provider_witness :
    selected_entries
      (fun p =>
        if p = chars "codex" then .error (chars "rpc failed")
        else .ok (some ⟨chars "claude", none, chars "now", none, none, none,
          none, none, none, none⟩))
      [chars "codex", chars "claude"] =
      .ok [⟨chars "claude", none, chars "now", none, none, none, none, none, none, none⟩] := by
  have h := orchestrator_failure_iff_no_provider.2.2.2.2.2
    (fun p =>
      if p = chars "codex" then .error (chars "rpc failed")
      else .ok (some ⟨chars "claude", none, chars "now", none, none, none,
        none, none, none, none⟩))
    [chars "codex", chars "claude"]
    ⟨chars "claude", by decide, by decide⟩
  exact h.trans (by rfl)

/-! ## Claim C5: credential source priority -/

/-- Claim C5: the token resolver consults, in order, the environment-variable
overrides (trimmed and rejected when empty), the secret-storage backends in
fixed priority order, and the on-disk credentials file; the result is the
value of the highest-priority non-empty source and no lower-priority source is
consulted once a higher one succeeds. -/
theorem resolve_token_priority :
    (∀ w, resolve_claude_oauth_access_token w =
        (resolve_claude_oauth_access_token_traced w).1)
  ∧ (∀ w, resolve_claude_oauth_access_token w =
        [first_env_value w.env claude_token_env_names,
         lookup_claude_secret w (chars "oauth_access_token"),
         load_claude_oauth_access_token_from_credentials_file w].findSome? id)
  ∧ (∀ w v, first_env_value w.env claude_token_env_names = some v →
        resolve_claude_oauth_access_token w = some v ∧
          (resolve_claude_oauth_access_token_traced w).2 = [.envVars])
  ∧ (∀ w v, first_env_value w.env claude_token_env_names = none →
        lookup_claude_secret w (chars "oauth_access_token") = some v →
        resolve_claude_oauth_access_token w = some v ∧
          TokenSource.credentialsFile ∉ (resolve_claude_oauth_access_token_traced w).2)
  ∧ (∀ w v, first_env_value w.env claude_token_env_names = none →
        lookup_claude_secret w (chars "oauth_access_token") = none →
        load_claude_oauth_access_token_from_credentials_file w = some v →
        resolve_claude_oauth_access_token w = some v)
  ∧ (∀ (env : Str → Option Str) name names value, env name = some value →
        trim value = [] →
        first_env_value env (name :: names) = first_env_value env names) := by
  refine ⟨?_, ?_, ?_, ?_, ?_, ?_⟩
  · intro w
    unfold resolve_claude_oauth_access_token resolve_claude_oauth_access_token_traced
      lookup_claude_secret
    cases h1 : first_env_value w.env claude_token_env_names with
    | some v => simp [Option.orElse]
    | none =>
      cases h2 : lookup_claude_secret_via_secret_tool w (chars "oauth_access_token") with
      | some v => simp [Option.orElse, h2]
      | none =>
        cases h3 : lookup_claude_secret_via_kwallet w (chars "oauth_access_token") with
        | some v => simp [Option.orElse, h2, h3]
        | none =>
          cases h4 : load_claude_oauth_access_token_from_credentials_file w with
          | some v => simp [Option.orElse, h2, h3]
          | none => simp [Option.orElse, h2, h3]
  · intro w
    unfold resolve_claude_oauth_access_token
    cases h1 : first_env_value w.env claude_token_env_names with
    | some v => simp [Option.orElse, List.findSome?]
    | none =>
      cases h2 : lookup_claude_secret w (chars "oauth_access_token") with
      | some v => simp [Option.orElse, h2, List.findSome?]
      | none =>
        cases h4 : load_claude_oauth_access_token_from_credentials_file w with
        | some v => simp [Option.orElse, h2, h4, List.findSome?]
        | none => simp [Option.orElse, h2, h4, List.findSome?]
  · intro w v h1
    unfold resolve_claude_oauth_access_token resolve_claude_oauth_access_token_traced
    rw [h1]
    exact ⟨by simp [Option.orElse], by simp⟩
  · intro w v h1 h2
    unfold resolve_claude_oauth_access_token resolve_claude_oauth_access_token_traced
    rw [h1]
    unfold lookup_claude_secret at h2 ⊢
    cases h2a : lookup_claude_secret_via_secret_tool w (chars "oauth_access_token") with
    | some sv =>
      rw [h2a] at h2
      simp only [Option.orElse] at h2
      cases h2
      exact ⟨by simp [Option.orElse, h2a], by simp⟩
    | none =>
      rw [h2a] at h2
      simp only [Option.orElse] at h2
      cases h2b : lookup_claude_secret_via_kwallet w (chars "oauth_access_token") with
      | some kv =>
        rw [h2b] at h2
        cases h2
        exact ⟨by simp [Option.orElse, h2a, h2b], by simp⟩
      | none =>
        rw [h2b] at h2
        exact absurd h2 (by simp)
  · intro w v h1 h2 h4
    unfold resolve_claude_oauth_access_token
    rw [h1, h2]
    simp [Option.orElse, h4]
  · intro env name names value hv ht
    unfold first_env_value
    simp [List.findSome?, hv, ht]

theorem resolve_token_priority_witness :
    resolve_claude_oauth_access_token
      ⟨fun name => if name = chars "CODEXBAR_CLAUDE_OAUTH_TOKEN"
          then some (chars " env-tok ") else none,
        fun _ => some (true, chars "keyring-tok"),
        fun _ _ => none,
        some (.obj [(chars "claudeAiOauth",
          .obj [(chars "accessToken", .str (chars "file-tok"))])])⟩ =
      some (chars "env-tok")
    ∧ (resolve_claude_oauth_access_token_traced
        ⟨fun name => if name = chars "CODEXBAR_CLAUDE_OAUTH_TOKEN"
            then some (chars " env-tok ") else none,
          fun _ => some (true, chars "keyring-tok"),
          fun _ _ => none,
          some (.obj [(chars "claudeAiOauth",
            .obj [(chars "accessToken", .str (chars "file-tok"))])])⟩).2 =
      [.envVars] :=
  resolve_token_priority.2.2.1
    ⟨fun name => if name = chars "CODEXBAR_CLAUDE_OAUTH_TOKEN"
        then some (chars " env-tok ") else none,
      fun _ => some (true, chars "keyring-tok"),
      fun _ _ => none,
      some (.obj [(chars "claudeAiOauth",
        .obj [(chars "accessToken", .str (chars "file-tok"))])])⟩
    (chars "env-tok") (by rfl)

/-! ## Claim C4: label-anchored single-number extraction -/

/-- Claim C4: the label-anchored extraction finds the first line containing
the case-insensitive label, requires that line to contain left, takes the
rightmost numeric token before the first percent sign, and converts via
used = 100 - left clamped to [0, 100]; fed the two-line limits text it yields
a primary usedPercent of 28 and a secondary usedPercent of 61. -/
theorem status_scrape_label_extraction :
    (codex_status_entry_core (chars "5h limit: 72% left\nweekly limit: 39% left\n") =
        some (some ⟨some 28, some 300, none⟩, some ⟨some 61, some 10080, none⟩, none))
  ∧ (∀ line, containsSub (lowerStr line) (chars "left") = false →
        extract_percent_left_from_line line = none)
  ∧ (∀ line i, containsSub (lowerStr line) (chars "left") = true →
        line.findIdx? (· = '%') = some i →
        extract_percent_left_from_line line = parse_last_number (line.take i))
  ∧ (∀ cleaned line left,
        first_line_containing_case_insensitive cleaned (chars "5h limit") = some line →
        extract_percent_left_from_line line = some left →
        status_five_used cleaned = some (rclamp (100 - left)))
  ∧ (∀ cleaned line left,
        first_line_containing_case_insensitive cleaned (chars "weekly limit") = some line →
        extract_percent_left_from_line line = some left →
        status_weekly_used cleaned = some (rclamp (100 - left))) := by
  refine ⟨by decide, ?_, ?_, ?_, ?_⟩
  · intro line h
    simp [extract_percent_left_from_line, h]
  · intro line i h hidx
    simp [extract_percent_left_from_line, h, hidx]
  · intro cleaned line left h hx
    unfold status_five_used
    rw [h]
    simp [Option.bind, hx]
  · intro cleaned line left h hx
    unfold status_weekly_used
    rw [h]
    simp [Option.bind, hx]

theorem status_scrape_label_extraction_witness :
    status_five_used (chars "5h limit: 72% left\nweekly limit: 39% left\n") =
      some (rclamp (100 - 72)) :=
  status_scrape_label_extraction.2.2.2.1
    (chars "5h limit: 72% left\nweekly limit: 39% left\n")
    (chars "5h limit: 72% left") 72 (by decide) (by decide)

/-! ## Claim C8: generic credit extraction -/

/-- Claim C8 counterexample: on a credits line that contains a colon but no
number after it, the code falls back to searching the whole line and returns
the number before the colon, while the claimed algorithm searches only after
the colon and finds nothing. -/
theorem credits_colon_only_counterexample :
    extract_credits_from_status (chars "5 credits: none\n") = some 5
      ∧ extract_credits_spec_alg (chars "5 credits: none\n") = none :=
  ⟨by decide, by decide⟩

/-- Claim C8 (amended): the extraction scans every line containing credits;
on a line with a colon it first searches the text after the colon and, when no
number is found there, falls back to searching the whole line; on a line
without a colon it searches the whole line; the first number found across the
matching lines is returned, and no match is reported as none; fed the
credits-remaining text it yields 1234.5. -/
theorem credits_extraction_amended :
    (extract_credits_from_status (chars "Credits remaining: 1,234.5\n") = some (mkRat 2469 2))
  ∧ (∀ line, containsSub (lowerStr line) (chars "credits") = false →
        credit_from_line line = none)
  ∧ (∀ line pre tail v, containsSub (lowerStr line) (chars "credits") = true →
        splitOnceColon line = some (pre, tail) → parse_first_number tail = some v →
        credit_from_line line = some v)
  ∧ (∀ line pre tail, containsSub (lowerStr line) (chars "credits") = true →
        splitOnceColon line = some (pre, tail) → parse_first_number tail = none →
        credit_from_line line = parse_first_number line)
  ∧ (∀ line, containsSub (lowerStr line) (chars "credits") = true →
        splitOnceColon line = none → credit_from_line line = parse_first_number line)
  ∧ (∀ text, extract_credits_from_status text = (rustLines text).findSome? credit_from_line) := by
  refine ⟨by decide, ?_, ?_, ?_, ?_, fun text => rfl⟩
  · intro line h
    simp [credit_from_line, h]
  · intro line pre tail v h hsplit hv
    simp [credit_from_line, h, hsplit, hv]
  · intro line pre tail h hsplit hv
    simp [credit_from_line, h, hsplit, hv]
  · intro line h hsplit
    simp [credit_from_line, h, hsplit]

theorem credits_extraction_amended_witness :
    credit_from_line (chars "Credits remaining: 1,234.5") = some (mkRat 2469 2) :=
  credits_extraction_amended.2.2.1 (chars "Credits remaining: 1,234.5")
    (chars "Credits remaining") (chars " 1,234.5") (mkRat 2469 2)
    (by decide) (by decide) (by decide)

/-! ## Claim C7: windowed-search extraction -/

/-- Claim C7: a windowed-search extraction locates a line whose lowercase form
contains a label synonym, scans up to 8 subsequent lines for the first one
containing a percent sign, takes the numeric token before it, keeps the value
as-is on used, spent or consumed lines and converts via 100 minus the value
otherwise, clamping to [0, 100]; fed the current-session text it yields a
usedPercent of 45 with no inversion, and every value it produces lies in
[0, 100]. -/
theorem windowed_extraction_behavior :
    (windowed_percent_extract [chars "current session"]
        (chars "Current session\n...\nUsage: 45% used\n") = some 45)
  ∧ (∀ labels text v, windowed_percent_extract labels text = some v →
        0 ≤ v ∧ v ≤ 100) := by
  constructor
  · decide
  · intro labels text v h
    unfold windowed_percent_extract at h
    dsimp only at h
    split at h
    · exact absurd h (by simp)
    · split at h
      · exact absurd h (by simp)
      · split at h
        · exact absurd h (by simp)
        · split at h
          · exact absurd h (by simp)
          · simp only [Option.some.injEq] at h
            exact h ▸ rclamp_mem _

theorem windowed_extraction_behavior_witness :
    (0 : Rat) ≤ 45 ∧ (45 : Rat) ≤ 100 :=
  windowed_extraction_behavior.2 [chars "current session"]
    (chars "Current session\n...\nUsage: 45% used\n") 45 (by decide)

end CodexBar
